import Mathlib

/-!
Shallow embedding of the bingo client's reconciliation and form logic.

The definitions below are transcribed from the client's source:
* `GameSelection.tsx` — the per-tier WebSocket message handler, the
  `NEW_GAME_AVAILABLE` dedup guards and the `fetchGameWithRetry` backoff;
* `GamePlay.tsx` — the two `NUMBER_DRAWN` accumulators (the current
  `handleMessage` one and the legacy `socket.on('number-drawn')` one) and
  `handleMarkNumber`;
* the card-selection view (`CardSelection`) — its `NUMBER_DRAWN` handler;
* the two `useGameWebSocket` hooks — their `ws.onclose` reconnect policy;
* the withdraw form — `WITHDRAW_CONFIG`, `canWithdraw`, `handleWithdraw`;
* the API helper `calculatePotentialWin`.

Machine numbers are embedded as `Nat`/`Int`/`ℚ`; JS `Map`/`Set` objects as
association lists / lists observed through `lookupA` / `∈`.  Asynchronous
fetch completions are modelled as separate events on the single-threaded
event loop (each handler or callback runs atomically).
-/

/-- The game lifecycle states used by the backend and the client. -/
inductive GState where
  | WAITING
  | COUNTDOWN
  | DRAWING
  | FINISHED
  | CLOSED
  | CANCELLED
deriving DecidableEq, Repr

/-- The `Game` record of `lib/api` (fields the reconciler reads/writes). -/
structure Game where
  id : String
  game_type : String
  state : GState
  bet_amount : ℚ
  player_count : Nat
  prize_pool : ℚ
  house_cut : ℚ
  countdown_ends : Option Int
deriving DecidableEq, Repr

/-- `calculatePotentialWin` from `lib/api`: zero for an empty game, otherwise
the total pool minus the house cut taken from the pool. -/
def calculatePotentialWin (game : Game) : ℚ :=
  if game.player_count = 0 then 0
  else
    let totalPool : ℚ := game.bet_amount * game.player_count
    let houseCut : ℚ := totalPool * game.house_cut
    totalPool - houseCut

/-- C10: for every game record, `calculatePotentialWin` equals
`bet_amount × player_count × (1 − house_cut)`; in particular it is `0` when
`player_count = 0`, since the pool itself is then `0`. -/
theorem calculate_potential_win_spec (g : Game) :
    calculatePotentialWin g = g.bet_amount * g.player_count * (1 - g.house_cut) := by
  unfold calculatePotentialWin
  by_cases h : g.player_count = 0
  · rw [if_pos h, h]
    push_cast
    ring
  · rw [if_neg h]
    ring

/-- A drawn number as accumulated by the current `GamePlay` view:
`{letter, number, drawn_at}`. -/
structure DrawnNumber where
  letter : String
  number : Nat
  drawn_at : String
deriving DecidableEq, Repr

/-- The `handleMessage` case `NUMBER_DRAWN` accumulator of `GamePlay`:
append the new `(letter, number)` entry unless an entry with the same letter
and number is already present. -/
def numberDrawnUpdate (prev : List DrawnNumber) (newDrawn : DrawnNumber) : List DrawnNumber :=
  if prev.any (fun n => n.letter == newDrawn.letter && n.number == newDrawn.number) then prev
  else prev ++ [newDrawn]

/-- A drawn number as kept by the legacy socket.io `GamePlay` view:
`{number, column, timestamp}`. -/
structure LegacyDrawnNumber where
  number : Nat
  column : String
  timestamp : Nat
deriving DecidableEq, Repr

/-- The legacy `socket.on('number-drawn')` accumulator: prepend the new entry
and keep only the 10 most recent (`[newDrawn, ...prev].slice(0, 10)`). -/
def numberDrawnLegacy (prev : List LegacyDrawnNumber) (newDrawn : LegacyDrawnNumber) :
    List LegacyDrawnNumber :=
  (newDrawn :: prev).take 10

/-- The (letter, number) key of a drawn entry. -/
def drawnKey (n : DrawnNumber) : String × Nat := (n.letter, n.number)

/-- Ten distinct drawn numbers, as accumulated by the legacy view. -/
def legacyPrevTen : List LegacyDrawnNumber :=
  [⟨1, "B", 0⟩, ⟨2, "B", 0⟩, ⟨3, "B", 0⟩, ⟨4, "B", 0⟩, ⟨5, "B", 0⟩,
   ⟨6, "B", 0⟩, ⟨7, "B", 0⟩, ⟨8, "B", 0⟩, ⟨9, "B", 0⟩, ⟨10, "B", 0⟩]

/-- C2 counterexample: in the legacy `socket.on('number-drawn')` handler the
collection does not only grow — with ten entries accumulated, delivering an
eleventh drops `B-10` from the collection. -/
theorem legacy_number_drawn_drops_counterexample :
    (⟨10, "B", 0⟩ : LegacyDrawnNumber) ∈ legacyPrevTen ∧
      (⟨10, "B", 0⟩ : LegacyDrawnNumber) ∉ numberDrawnLegacy legacyPrevTen ⟨11, "B", 0⟩ := by
  decide

/-- C2 (amended): the `handleMessage` `NUMBER_DRAWN` accumulator only grows,
re-delivery of an already-present (letter, number) pair is a no-op, and it
keeps the key set duplicate-free; the legacy socket.io accumulator instead
retains at most the 10 most recent entries. -/
theorem number_drawn_accumulator_spec (prev : List DrawnNumber) (d : DrawnNumber) :
    (∀ x ∈ prev, x ∈ numberDrawnUpdate prev d) ∧
    ((∃ n ∈ prev, n.letter = d.letter ∧ n.number = d.number) → numberDrawnUpdate prev d = prev) ∧
    ((prev.map drawnKey).Nodup → ((numberDrawnUpdate prev d).map drawnKey).Nodup) ∧
    (∀ (lp : List LegacyDrawnNumber) (ld : LegacyDrawnNumber),
        (numberDrawnLegacy lp ld).length ≤ 10) := by
  refine ⟨?_, ?_, ?_, ?_⟩
  · intro x hx
    unfold numberDrawnUpdate
    split
    · exact hx
    · exact List.mem_append_left _ hx
  · intro ⟨n, hn, hl, hnum⟩
    unfold numberDrawnUpdate
    rw [if_pos]
    rw [List.any_eq_true]
    exact ⟨n, hn, by simp [hl, hnum]⟩
  · intro hnd
    unfold numberDrawnUpdate
    split
    · exact hnd
    · rename_i habs
      rw [List.map_append, List.map_singleton]
      rw [List.nodup_append]
      refine ⟨hnd, List.nodup_singleton _, ?_⟩
      intro k hk hk'
      rw [List.mem_singleton] at hk'
      rw [List.mem_map] at hk
      obtain ⟨n, hn, hkey⟩ := hk
      apply habs
      rw [List.any_eq_true]
      refine ⟨n, hn, ?_⟩
      have h1 : n.letter = d.letter := by
        have := congrArg Prod.fst (hkey.trans hk')
        simpa [drawnKey] using this
      have h2 : n.number = d.number := by
        have := congrArg Prod.snd (hkey.trans hk')
        simpa [drawnKey] using this
      simp [h1, h2]
  · intro lp ld
    unfold numberDrawnLegacy
    calc (List.take 10 (ld :: lp)).length = min 10 (ld :: lp).length := List.length_take ..
      _ ≤ 10 := min_le_left ..

/-- C2 witness: on a concrete one-element accumulation, re-delivering the
same pair leaves the list unchanged, the old entry stays, and the key set
stays duplicate-free. -/
theorem number_drawn_accumulator_witness :
    (⟨"B", 7, "t0"⟩ : DrawnNumber) ∈
        numberDrawnUpdate [⟨"B", 7, "t0"⟩] ⟨"B", 7, "t1"⟩ ∧
    numberDrawnUpdate [⟨"B", 7, "t0"⟩] ⟨"B", 7, "t1"⟩ = [⟨"B", 7, "t0"⟩] ∧
    (((numberDrawnUpdate [⟨"B", 7, "t0"⟩] ⟨"B", 7, "t1"⟩).map drawnKey).Nodup) ∧
    (numberDrawnLegacy legacyPrevTen ⟨11, "B", 0⟩).length ≤ 10 := by
  have h := number_drawn_accumulator_spec [⟨"B", 7, "t0"⟩] ⟨"B", 7, "t1"⟩
  exact ⟨h.1 _ (by decide), h.2.1 ⟨⟨"B", 7, "t0"⟩, by decide, rfl, rfl⟩,
    h.2.2.1 (by decide), h.2.2.2 legacyPrevTen ⟨11, "B", 0⟩⟩

/-- The string key `${letter}-${number}` used for marked cells. -/
def mkKey (letter : String) (number : Nat) : String :=
  letter ++ "-" ++ toString number

/-- Membership test `drawnNumbers.some(n => n.letter === letter && n.number === number)`. -/
def isDrawn (drawnNumbers : List DrawnNumber) (letter : String) (number : Nat) : Bool :=
  drawnNumbers.any (fun n => n.letter == letter && n.number == number)

/-- JS `Set.add` on a set of string keys (observed as a list without dups). -/
def setAdd (s : List String) (key : String) : List String :=
  if key ∈ s then s else s ++ [key]

/-- `handleMarkNumber` from `GamePlay`: reject (no change) when the cell's
(letter, number) has not been drawn; otherwise add its key to the marked
set.  Marks are only ever added, never removed. -/
def handleMarkNumber (drawnNumbers : List DrawnNumber) (marked : List String)
    (letter : String) (number : Nat) : List String :=
  if isDrawn drawnNumbers letter number then setAdd marked (mkKey letter number)
  else marked

/-- C8: marking succeeds only for a drawn (letter, number) — an undrawn mark
attempt leaves the marked set unchanged; a drawn mark attempt adds the key;
and no mark attempt ever removes an existing mark (marking is irreversible,
not a toggle). -/
theorem handle_mark_number_spec (dns : List DrawnNumber) (marked : List String)
    (l : String) (n : Nat) :
    (isDrawn dns l n = false → handleMarkNumber dns marked l n = marked) ∧
    (isDrawn dns l n = true → mkKey l n ∈ handleMarkNumber dns marked l n) ∧
    (∀ k ∈ marked, k ∈ handleMarkNumber dns marked l n) := by
  refine ⟨?_, ?_, ?_⟩
  · intro h
    unfold handleMarkNumber
    rw [h]
    rfl
  · intro h
    unfold handleMarkNumber
    rw [h]
    simp only [if_true]
    unfold setAdd
    split
    · assumption
    · exact List.mem_append_right _ (List.mem_singleton_self _)
  · intro k hk
    unfold handleMarkNumber
    split
    · unfold setAdd
      split
      · exact hk
      · exact List.mem_append_left _ hk
    · exact hk

/-- C8 witness: with `B-5` drawn and `B-3` already marked, marking `B-5`
keeps the old mark and adds the new one; marking the undrawn `B-9` changes
nothing. -/
theorem handle_mark_number_witness :
    mkKey "B" 5 ∈ handleMarkNumber [⟨"B", 5, "t"⟩] [mkKey "B" 3] "B" 5 ∧
    mkKey "B" 3 ∈ handleMarkNumber [⟨"B", 5, "t"⟩] [mkKey "B" 3] "B" 5 ∧
    handleMarkNumber [⟨"B", 5, "t"⟩] [mkKey "B" 3] "B" 9 = [mkKey "B" 3] := by
  have h5 := handle_mark_number_spec [⟨"B", 5, "t"⟩] [mkKey "B" 3] "B" 5
  have h9 := handle_mark_number_spec [⟨"B", 5, "t"⟩] [mkKey "B" 3] "B" 9
  exact ⟨h5.2.1 (by decide), h5.2.2 _ (List.mem_singleton_self _), h9.1 (by decide)⟩

/-- JS `String.prototype.trim()` on the embedded strings: drop leading and
trailing whitespace characters. -/
def trimS (s : String) : String :=
  ⟨((s.data.dropWhile Char.isWhitespace).reverse.dropWhile Char.isWhitespace).reverse⟩

/-- `WITHDRAW_CONFIG.MIN_AMOUNT`: minimum withdrawal amount in Birr. -/
def MIN_AMOUNT : ℚ := 50

/-- `WITHDRAW_CONFIG.MIN_REMAINING`: minimum balance that must remain. -/
def MIN_REMAINING : ℚ := 10

/-- `canWithdraw` from the withdraw form.  `hasDeposits` is the component's
`boolean | null` state (`null` while the deposit check is in flight); the
entered amount is the `parseFloat` result (`none` when not a number), with
`parseFloat(amount) || 0` modelled by `Option.getD 0`. -/
def canWithdraw (hasDeposits : Option Bool) (withdrawType accountNumber : String)
    (amount : Option ℚ) (balance : ℚ) : Bool :=
  let amountNum : ℚ := amount.getD 0
  let remainingBalance : ℚ := balance - amountNum
  let isValidAmount := decide (MIN_AMOUNT ≤ amountNum) && decide (MIN_REMAINING ≤ remainingBalance)
  decide (hasDeposits = some true) && decide (withdrawType ≠ "") &&
    decide (trimS accountNumber ≠ "") && isValidAmount

/-- A withdraw request as posted to the backend. -/
structure WithdrawRequest where
  amount : ℚ
  accountNumber : String
  withdrawType : String
deriving DecidableEq, Repr

/-- `handleWithdraw` from the withdraw form: bail out unless `canWithdraw`,
re-validate the minimum amount, the minimum remaining balance and the
balance itself, then issue the request. -/
def handleWithdraw (hasDeposits : Option Bool) (withdrawType accountNumber : String)
    (amount : Option ℚ) (balance : ℚ) : Option WithdrawRequest :=
  if !(canWithdraw hasDeposits withdrawType accountNumber amount balance) then none
  else
    let withdrawAmount : ℚ := amount.getD 0
    if withdrawAmount < MIN_AMOUNT then none
    else if balance - withdrawAmount < MIN_REMAINING then none
    else if balance < withdrawAmount then none
    else some ⟨withdrawAmount, trimS accountNumber, withdrawType⟩

/-- C9: a withdraw request is issued exactly when `canWithdraw` holds, and
`canWithdraw` holds exactly when the user has a prior deposit, a withdraw
type and a non-blank account number are given, the amount is at least the
minimum (50) and the remaining balance is at least the minimum (10). -/
theorem withdraw_gating_spec (hd : Option Bool) (wt acct : String)
    (amount : Option ℚ) (bal : ℚ) :
    ((handleWithdraw hd wt acct amount bal).isSome =
        canWithdraw hd wt acct amount bal) ∧
    (canWithdraw hd wt acct amount bal = true ↔
        hd = some true ∧ wt ≠ "" ∧ trimS acct ≠ "" ∧
        MIN_AMOUNT ≤ amount.getD 0 ∧ MIN_REMAINING ≤ bal - amount.getD 0) := by
  have hiff : canWithdraw hd wt acct amount bal = true ↔
      hd = some true ∧ wt ≠ "" ∧ trimS acct ≠ "" ∧
      MIN_AMOUNT ≤ amount.getD 0 ∧ MIN_REMAINING ≤ bal - amount.getD 0 := by
    unfold canWithdraw
    simp [Bool.and_eq_true, and_assoc]
  refine ⟨?_, hiff⟩
  by_cases hc : canWithdraw hd wt acct amount bal = true
  · obtain ⟨-, -, -, hmin, hrem⟩ := hiff.mp hc
    unfold handleWithdraw
    rw [hc]
    have h1 : ¬ amount.getD 0 < MIN_AMOUNT := not_lt.mpr hmin
    have h2 : ¬ bal - amount.getD 0 < MIN_REMAINING := not_lt.mpr hrem
    have h3 : ¬ bal < amount.getD 0 := by
      rw [not_lt]
      have h10 : (0 : ℚ) ≤ MIN_REMAINING := by norm_num [MIN_REMAINING]
      linarith [hrem]
    simp [h1, h2, h3, hc]
  · rw [Bool.not_eq_true] at hc
    unfold handleWithdraw
    rw [hc]
    simp

/-- C9 witness: balance 100 with every condition met issues a request;
amount 40 (below the 50 minimum) is blocked; balance 55 with amount 50
(remaining 5 < 10) is blocked. -/
theorem withdraw_gating_witness :
    (handleWithdraw (some true) "Telebirr" "0911" (some 50) 100).isSome = true ∧
    (handleWithdraw (some true) "Telebirr" "0911" (some 40) 100).isSome = false ∧
    (handleWithdraw (some true) "Telebirr" "0911" (some 50) 55).isSome = false := by
  have h1 := withdraw_gating_spec (some true) "Telebirr" "0911" (some 50) 100
  have h2 := withdraw_gating_spec (some true) "Telebirr" "0911" (some 40) 100
  have h3 := withdraw_gating_spec (some true) "Telebirr" "0911" (some 50) 55
  refine ⟨?_, ?_, ?_⟩
  · rw [h1.1, h1.2]
    refine ⟨rfl, by decide, by decide, by norm_num [MIN_AMOUNT], by norm_num [MIN_REMAINING]⟩
  · rw [h2.1]
    rw [Bool.eq_false_iff]
    intro hcontra
    have := (h2.2.mp hcontra).2.2.2.1
    norm_num [MIN_AMOUNT] at this
  · rw [h3.1]
    rw [Bool.eq_false_iff]
    intro hcontra
    have := (h3.2.mp hcontra).2.2.2.2
    norm_num [MIN_REMAINING] at this

/-- `maxReconnectAttempts` of both `useGameWebSocket` hooks. -/
def maxReconnectAttempts : Nat := 5

/-- The reconnect delay `Math.min(1000 * Math.pow(2, attempts), 10000)`. -/
def reconnectDelay (attempts : Nat) : Nat := min (1000 * 2 ^ attempts) 10000

/-- `ws.onclose` of the later `useGameWebSocket` hook: do nothing on a clean
close (code 1000) or once `maxReconnectAttempts` attempts were made;
otherwise bump the attempt counter and schedule a reconnect after
`reconnectDelay` of the bumped counter.  Returns `some (delay, attempts')`
when a reconnect is scheduled. -/
def onCloseLater (attempts closeCode : Nat) : Option (Nat × Nat) :=
  if closeCode = 1000 ∨ maxReconnectAttempts ≤ attempts then none
  else some (reconnectDelay (attempts + 1), attempts + 1)

/-- `ws.onclose` of the earlier `useGameWebSocket` hook: reconnect whenever
fewer than `maxReconnectAttempts` attempts were made, with the same delay
formula — the close code is never inspected. -/
def onCloseEarly (attempts closeCode : Nat) : Option (Nat × Nat) :=
  if attempts < maxReconnectAttempts then
    some (reconnectDelay (attempts + 1), attempts + 1)
  else none

/-- C7 counterexample: the earlier hook schedules a reconnect (after 2000 ms)
even for a clean shutdown with close code 1000, so "on a clean close, no
further reconnection is attempted" fails on that hook. -/
theorem early_hook_clean_close_counterexample :
    onCloseEarly 0 1000 = some (2000, 1) := by decide

/-- C7 (amended): the later hook implements the claimed policy — no reconnect
on a clean close (code 1000) or after 5 attempts, otherwise a reconnect with
a doubling delay capped at 10 s (2 s, 4 s, 8 s, 10 s, 10 s) and an attempt
counter that never passes 5; the earlier hook ignores the close code and
reconnects on any close while fewer than 5 attempts were made. -/
theorem reconnect_policy_spec (n c : Nat) :
    (onCloseLater n 1000 = none) ∧
    (maxReconnectAttempts ≤ n → onCloseLater n c = none) ∧
    (c ≠ 1000 → n < maxReconnectAttempts →
        onCloseLater n c = some (reconnectDelay (n + 1), n + 1) ∧
        reconnectDelay (n + 1) ≤ 10000 ∧ n + 1 ≤ maxReconnectAttempts) ∧
    ((onCloseEarly n c).isSome = true ↔ n < maxReconnectAttempts) ∧
    ([reconnectDelay 1, reconnectDelay 2, reconnectDelay 3, reconnectDelay 4, reconnectDelay 5]
        = [2000, 4000, 8000, 10000, 10000]) := by
  refine ⟨?_, ?_, ?_, ?_, by decide⟩
  · unfold onCloseLater
    rw [if_pos (Or.inl rfl)]
  · intro h
    unfold onCloseLater
    rw [if_pos (Or.inr h)]
  · intro hc hn
    refine ⟨?_, min_le_right _ _, hn⟩
    unfold onCloseLater
    rw [if_neg]
    push_neg
    exact ⟨hc, hn⟩
  · unfold onCloseEarly
    split
    · simpa
    · simp only [Option.isSome_none, Bool.false_eq_true, false_iff]
      assumption

/-- C7 witness: a non-clean close (code 1006) with no prior attempts
schedules a reconnect after 2000 ms; a clean close never does; the sixth
close is abandoned. -/
theorem reconnect_policy_witness :
    onCloseLater 0 1006 = some (2000, 1) ∧
    onCloseLater 3 1000 = none ∧
    onCloseLater 5 1006 = none := by
  have h0 := reconnect_policy_spec 0 1006
  have h3 := reconnect_policy_spec 3 1000
  have h5 := reconnect_policy_spec 5 1006
  refine ⟨?_, h3.1, h5.2.1 (by decide)⟩
  have := (h0.2.2.1 (by decide) (by decide)).1
  rw [this]
  rfl

/-- The 1.5 s `setTimeout` delay before the first fetch of a game announced
by `NEW_GAME_AVAILABLE`. -/
def initialFetchDelay : Nat := 1500

/-- `maxRetries` of `fetchGameWithRetry`. -/
def fetchMaxRetries : Nat := 3

/-- The backoff delay of `fetchGameWithRetry`:
`Math.min(1000 * Math.pow(2, retryCount), 3000)`. -/
def retryDelay (retryCount : Nat) : Nat := min (1000 * 2 ^ retryCount) 3000

/-- How a run of `fetchGameWithRetry` ended: `getGameState` succeeded, the
last-resort `getGames` listing found the game, or everything failed. -/
inductive FetchResult where
  | direct
  | viaFallback
  | failed
deriving DecidableEq, Repr

/-- `fetchGameWithRetry` from the `NEW_GAME_AVAILABLE` handler, as a schedule
of awaited delays plus the outcome.  `ok r` tells whether the `getGameState`
call of attempt `r` succeeds and `fallbackFinds` whether the last-resort
`getGames` listing contains the game.  The recursion is fuelled; attempts are
numbered by `retryCount` exactly as in the source (the delay is awaited only
when `retryCount > 0`, and the fallback runs only on the last attempt). -/
def fetchGameWithRetry (ok : Nat → Bool) (fallbackFinds : Bool) :
    Nat → Nat → List Nat × FetchResult
  | 0, _ => ([], .failed)
  | fuel + 1, r =>
    let waits : List Nat := if 0 < r then [retryDelay r] else []
    if ok r then (waits, .direct)
    else if r < fetchMaxRetries then
      let rest := fetchGameWithRetry ok fallbackFinds fuel (r + 1)
      (waits ++ rest.1, rest.2)
    else if fallbackFinds then (waits, .viaFallback)
    else (waits, .failed)

/-- A full run of `fetchGameWithRetry` starting at `retryCount = 0`. -/
def fetchSchedule (ok : Nat → Bool) (fallbackFinds : Bool) : List Nat × FetchResult :=
  fetchGameWithRetry ok fallbackFinds (fetchMaxRetries + 1) 0

/-- C6: the initial delay is 1.5 s and the fallback listing is the last
resort as claimed, but the retry backoff delays actually awaited are
2 s, 3 s, 3 s — not the 1 s, 2 s, 3 s stated by the claim and by the code's
own inline comment.  The 1 s value (`retryDelay 0`) is computed yet never
awaited, because the sleep is skipped when `retryCount = 0` and each retry
re-enters with the already-incremented count. -/
theorem fetch_retry_schedule_eval :
    initialFetchDelay = 1500 ∧
    (fetchSchedule (fun _ => false) true).1 = [2000, 3000, 3000] ∧
    (fetchSchedule (fun _ => false) true).2 = FetchResult.viaFallback ∧
    retryDelay 0 = 1000 ∧
    (fetchSchedule (fun r => r == 1) false).1 = [2000] ∧
    (fetchSchedule (fun r => r == 1) false).2 = FetchResult.direct := by
  decide

/-- Association-list lookup, modelling `Map.get`. -/
def lookupA {α : Type} (m : List (String × α)) (k : String) : Option α :=
  (m.find? (fun p => p.1 == k)).map (·.2)

/-- Association-list removal, modelling `Map.delete` / `delete obj[k]`. -/
def removeA {α : Type} (m : List (String × α)) (k : String) : List (String × α) :=
  m.filter (fun p => !(p.1 == k))

/-- Association-list update, modelling `Map.set` / `obj[k] = v`. -/
def setA {α : Type} (m : List (String × α)) (k : String) (v : α) : List (String × α) :=
  (k, v) :: removeA m k

/-- `Set.add` on a set of ids. -/
def insertS (s : List String) (k : String) : List String :=
  if k ∈ s then s else k :: s

/-- `Set.delete` on a set of ids. -/
def removeS (s : List String) (k : String) : List String :=
  s.filter (fun x => !(x == k))

/-- The `message.data` fields a `GAME_STATUS` frame may carry (absent fields
are `none`, matching the handler's truthiness / `!== undefined` guards). -/
structure StatusData where
  status : Option GState
  state : Option GState
  player_count : Option Nat
  prize_pool : Option ℚ
  countdown_ends : Option Int
  secondsLeft : Option Int
deriving DecidableEq, Repr

/-- The events a tier's `GameSelection` handler instance reacts to.  The
message events mirror the `handleMessage` switch; `fetchSuccess` /
`fetchFailure` are the (atomic, event-loop) completions of the asynchronous
`fetchGameWithRetry` chain started by `NEW_GAME_AVAILABLE` — `fetchSuccess`
runs `addNewGame` plus the `finally` cleanup, `fetchFailure` the error
cleanup. -/
inductive SelEvent where
  | initialState (game : Game)
  | gameStatus (d : StatusData)
  | playerCount (count : Option Nat)
  | playerJoined (count : Option Nat) (prize : Option ℚ)
  | playerLeft (count : Option Nat) (prize : Option ℚ)
  | countdownTick (secondsLeft : Option Int) (ends : Option Int)
  | numberDrawn
  | winner
  | newGameAvailable (gameType gameId : String)
  | fetchSuccess (gameId : String) (game : Game)
  | fetchFailure (gameId : String)
deriving DecidableEq, Repr

/-- The view state of `GameSelection`: the displayed `games` list, the
per-game `countdowns` record, and the module/ref-level maps and sets
(`wsGameIdMap`, `processedGamesRef`, `fetchingGamesRef`, `addingGamesRef`). -/
structure SelState where
  games : List Game
  countdowns : List (String × Int)
  wsGameId : List (String × String)
  processed : List String
  fetching : List String
  adding : List String
deriving DecidableEq, Repr

/-- `prev.map(g => g.id === cid ? f(g) : g)` — update the game(s) with a
given id. -/
def gameUpd (cid : String) (f : Game → Game) (games : List Game) : List Game :=
  games.map (fun g => if g.id == cid then f g else g)

/-- The countdown bookkeeping of the regular `GAME_STATUS` branch when the
incoming state is `COUNTDOWN`: prefer `secondsLeft`, else derive the
remaining seconds from `countdown_ends` and the current time. -/
def applyCountdownField (cds : List (String × Int)) (cid : String) (now : Int)
    (d : StatusData) : List (String × Int) :=
  match d.secondsLeft with
  | some sl => if 0 < sl then setA cds cid sl else removeA cds cid
  | none =>
    match d.countdown_ends with
    | some ends =>
      let seconds := max 0 ((ends - now).fdiv 1000)
      if 0 < seconds then setA cds cid seconds else removeA cds cid
    | none => cds

/-- One atomic step of the tier's handler (or of a pending fetch callback).
Returns the new state together with `some gid` when this step scheduled the
asynchronous `fetchGameWithRetry` chain for `gid` (the `NEW_GAME_AVAILABLE`
branch that passes all dedup guards). -/
def selStepF (tier : String) (now : Int) (s : SelState) :
    SelEvent → SelState × Option String
  | .initialState game =>
    let s1 : SelState := { s with wsGameId := setA s.wsGameId tier game.id }
    if s1.games.any (fun g => g.id == game.id) then
      ({ s1 with games := s1.games.map (fun g => if g.id == game.id then game else g) }, none)
    else if game.state = .WAITING ∨ game.state = .COUNTDOWN then
      ({ s1 with games := s1.games.filter (fun g => !(g.game_type == tier)) ++ [game] }, none)
    else (s1, none)
  | .gameStatus d =>
    let currentGameId := lookupA s.wsGameId tier
    if d.status = some .FINISHED ∨ d.status = some .CANCELLED then
      match currentGameId with
      | some cid =>
        if s.games.any (fun g => g.id == cid) then
          ({ s with
              countdowns := removeA s.countdowns cid
              processed := removeS s.processed cid
              wsGameId := removeA s.wsGameId tier
              games := s.games.filter (fun g => !(g.id == cid)) }, none)
        else (s, none)
      | none => (s, none)
    else
      match currentGameId with
      | none => (s, none)
      | some cid =>
        match d.state with
        | some st =>
          match s.games.find? (fun g => g.id == cid) with
          | some _ =>
            ({ s with
                games := gameUpd cid (fun g =>
                  { g with
                      state := st
                      player_count := (d.player_count).getD g.player_count
                      prize_pool := (d.prize_pool).getD g.prize_pool
                      countdown_ends := (d.countdown_ends).or g.countdown_ends }) s.games
                countdowns :=
                  if st ≠ .COUNTDOWN then removeA s.countdowns cid
                  else applyCountdownField s.countdowns cid now d }, none)
          | none => (s, none)
        | none =>
          match d.countdown_ends with
          | some ends =>
            match s.games.find? (fun g => g.id == cid) with
            | some g =>
              if g.state = .WAITING then
                ({ s with
                    games := gameUpd cid (fun g0 =>
                      { g0 with
                          state := .COUNTDOWN
                          countdown_ends := some ends
                          player_count := (d.player_count).getD g0.player_count
                          prize_pool := (d.prize_pool).getD g0.prize_pool }) s.games }, none)
              else (s, none)
            | none => (s, none)
          | none => (s, none)
  | .playerCount count =>
    match count with
    | none => (s, none)
    | some n =>
      match lookupA s.wsGameId tier with
      | none => (s, none)
      | some cid =>
        if s.games.any (fun g => g.id == cid) then
          ({ s with games := gameUpd cid (fun g => { g with player_count := n }) s.games }, none)
        else (s, none)
  | .playerJoined count prize =>
    match lookupA s.wsGameId tier with
    | some cid =>
      match s.games.find? (fun g => g.id == cid) with
      | some g =>
        let newCount := count.getD (g.player_count + 1)
        ({ s with games := gameUpd cid (fun g0 =>
            { g0 with player_count := newCount,
                      prize_pool := prize.getD g0.prize_pool }) s.games }, none)
      | none => (s, none)
    | none => (s, none)
  | .playerLeft count prize =>
    match lookupA s.wsGameId tier with
    | some cid =>
      match s.games.find? (fun g => g.id == cid) with
      | some g =>
        let newCount := count.getD (g.player_count - 1)
        ({ s with games := gameUpd cid (fun g0 =>
            { g0 with player_count := newCount,
                      prize_pool := prize.getD g0.prize_pool }) s.games }, none)
      | none => (s, none)
    | none => (s, none)
  | .countdownTick secondsLeft ends =>
    match lookupA s.wsGameId tier with
    | none => (s, none)
    | some cid =>
      match secondsLeft with
      | none => (s, none)
      | some sl =>
        match s.games.find? (fun g => g.id == cid) with
        | none => (s, none)
        | some g =>
          if g.state = .DRAWING ∨ g.state = .FINISHED ∨ g.state = .CLOSED ∨ g.state = .CANCELLED then
            ({ s with countdowns :=
                if g.state = .DRAWING then removeA s.countdowns cid else s.countdowns }, none)
          else
            let newState := if g.state = .WAITING then GState.COUNTDOWN else g.state
            let cds :=
              if newState = .COUNTDOWN then
                (if 0 < sl then setA s.countdowns cid sl else removeA s.countdowns cid)
              else s.countdowns
            ({ s with
                countdowns := cds
                games := gameUpd cid (fun g0 =>
                  { g0 with state := newState, countdown_ends := ends.or g0.countdown_ends }) s.games },
              none)
  | .numberDrawn =>
    match lookupA s.wsGameId tier with
    | some cid =>
      match s.games.find? (fun g => g.id == cid) with
      | none => (s, none)
      | some g =>
        if g.state = .COUNTDOWN ∨ g.state = .WAITING then
          ({ s with
              countdowns := removeA s.countdowns cid
              games := gameUpd cid (fun g0 => { g0 with state := .DRAWING }) s.games }, none)
        else (s, none)
    | none => (s, none)
  | .winner =>
    match lookupA s.wsGameId tier with
    | some cid =>
      if s.games.any (fun g => g.id == cid) then
        ({ s with
            countdowns := removeA s.countdowns cid
            processed := removeS s.processed cid
            wsGameId := removeA s.wsGameId tier
            games := s.games.filter (fun g => !(g.id == cid)) }, none)
      else (s, none)
    | none => (s, none)
  | .newGameAvailable gtype gid =>
    if gtype = tier then
      if gid ∈ s.processed then (s, none)
      else if gid ∈ s.fetching then (s, none)
      else if s.games.any (fun g => g.id == gid) then
        ({ s with processed := insertS s.processed gid, wsGameId := setA s.wsGameId tier gid },
          none)
      else
        ({ s with
            fetching := insertS s.fetching gid
            processed := insertS s.processed gid
            wsGameId := setA s.wsGameId tier gid }, some gid)
    else (s, none)
  | .fetchSuccess gid game =>
    if gid ∈ s.processed ∧ s.games.any (fun g => g.id == gid) then
      ({ s with fetching := removeS s.fetching gid }, none)
    else if gid ∈ s.adding then
      ({ s with fetching := removeS s.fetching gid }, none)
    else
      let adding1 := insertS s.adding gid
      if s.games.any (fun g => g.id == game.id) then
        ({ s with
            games := s.games.map (fun g => if g.id == game.id then game else g)
            adding := removeS adding1 gid
            fetching := removeS s.fetching gid }, none)
      else
        ({ s with
            games := s.games.filter (fun g => !(g.game_type == tier)) ++ [game]
            adding := removeS adding1 gid
            fetching := removeS s.fetching gid }, none)
  | .fetchFailure gid =>
    ({ s with
        processed := removeS s.processed gid
        fetching := removeS s.fetching gid
        wsGameId := removeA s.wsGameId tier }, none)

/-- The state after one handler step. -/
def selStep (tier : String) (now : Int) (s : SelState) (e : SelEvent) : SelState :=
  (selStepF tier now s e).1

/-- The state after a sequence of handler steps. -/
def selRun (tier : String) (now : Int) (s : SelState) (es : List SelEvent) : SelState :=
  es.foldl (selStep tier now) s

/-- How many steps of a trace scheduled the fetch chain for `gid`. -/
def countFetchStarts (tier : String) (now : Int) (gid : String) :
    SelState → List SelEvent → Nat
  | _, [] => 0
  | s, e :: es =>
    (if (selStepF tier now s e).2 = some gid then 1 else 0)
      + countFetchStarts tier now gid (selStep tier now s e) es

/-- The displayed state of the game with a given id (`none` if untracked). -/
def stateOf (s : SelState) (i : String) : Option GState :=
  (s.games.find? (fun g => g.id == i)).map (·.state)

theorem lookupA_removeA {α : Type} (m : List (String × α)) (k : String) :
    lookupA (removeA m k) k = none := by
  unfold lookupA
  have h : (removeA m k).find? (fun p => p.1 == k) = none := by
    rw [List.find?_eq_none]
    intro p hp
    unfold removeA at hp
    rw [List.mem_filter] at hp
    simpa using hp.2
  rw [h]
  rfl

theorem mem_insertS_of_mem {s : List String} {k x : String} (h : x ∈ s) : x ∈ insertS s k := by
  unfold insertS
  split
  · exact h
  · exact List.mem_cons_of_mem _ h

theorem mem_insertS_self (s : List String) (k : String) : k ∈ insertS s k := by
  unfold insertS
  split
  · assumption
  · exact List.mem_cons_self _ _

theorem mem_removeS_of_mem {s : List String} {k x : String} (h : x ∈ s) (hne : x ≠ k) :
    x ∈ removeS s k := by
  unfold removeS
  rw [List.mem_filter]
  exact ⟨h, by simpa using hne⟩

theorem find?_map_of_id_preserved (games : List Game) (f : Game → Game)
    (hf : ∀ g, (f g).id = g.id) (i : String) :
    (games.map f).find? (fun g => g.id == i) = (games.find? (fun g => g.id == i)).map f := by
  induction games with
  | nil => rfl
  | cons g gs ih =>
    simp only [List.map_cons, List.find?]
    rw [hf g]
    cases h : (g.id == i)
    · simpa [h] using ih
    · simp [h]

/-- A game in `DRAWING` state tracked by the `G3` tier. -/
def gDrawing : Game := ⟨"game1", "G3", .DRAWING, 10, 2, 18, 1/10, none⟩

/-- A stale `WAITING` snapshot of the same game. -/
def gStale : Game := ⟨"game1", "G3", .WAITING, 10, 0, 0, 1/10, none⟩

/-- A `GameSelection` state tracking `gDrawing` for tier `G3`. -/
def sTracked : SelState := ⟨[gDrawing], [], [("G3", "game1")], ["game1"], [], []⟩

/-- C1 counterexample: the `INITIAL_STATE` case replaces an already-tracked
game wholesale, so a stale `WAITING` snapshot arriving for a game that is
locally `DRAWING` downgrades its displayed state back to `WAITING`. -/
theorem initial_state_downgrade_counterexample :
    stateOf sTracked "game1" = some .DRAWING ∧
    stateOf (selStep "G3" 0 sTracked (.initialState gStale)) "game1" = some .WAITING := by
  constructor
  · rfl
  · rfl

/-- C4 counterexample: after `WINNER` removes the tracked game (also deleting
its id from the processed set), a re-delivered `NEW_GAME_AVAILABLE` for the
same id passes every dedup guard and its fetch completion re-adds the game
under the same id. -/
theorem finished_game_readded_counterexample :
    (selRun "G3" 0 sTracked [.winner]).games = [] ∧
    (selRun "G3" 0 sTracked
        [.winner, .newGameAvailable "G3" "game1", .fetchSuccess "game1" gStale]).games.map Game.id
      = ["game1"] := by
  constructor
  · rfl
  · rfl

/-- The `NUMBER_DRAWN` case of the card-selection view: promote a tracked
`COUNTDOWN`/`WAITING` game to `DRAWING`, otherwise leave it unchanged. -/
def csNumberDrawn (game : Option Game) : Option Game :=
  match game with
  | none => none
  | some prev =>
    if prev.state = .COUNTDOWN ∨ prev.state = .WAITING then some { prev with state := .DRAWING }
    else some prev

/-- C5: in both the tier handler (`GameSelection`) and the card-selection
handler, `NUMBER_DRAWN` for a tracked game in `WAITING`/`COUNTDOWN`
immediately forces the displayed state to `DRAWING` (clearing the tier's
displayed countdown), while a game already in `DRAWING` or a terminal state
is left unchanged. -/
theorem number_drawn_forces_drawing_spec (tier : String) (now : Int) (s : SelState)
    (i : String) (g : Game)
    (htrack : lookupA s.wsGameId tier = some i)
    (hfind : s.games.find? (fun g0 => g0.id == i) = some g) :
    (g.state = .WAITING ∨ g.state = .COUNTDOWN →
        stateOf (selStep tier now s .numberDrawn) i = some .DRAWING ∧
        lookupA (selStep tier now s .numberDrawn).countdowns i = none) ∧
    (g.state = .DRAWING ∨ g.state = .FINISHED ∨ g.state = .CLOSED ∨ g.state = .CANCELLED →
        selStep tier now s .numberDrawn = s) ∧
    (g.state = .COUNTDOWN ∨ g.state = .WAITING →
        csNumberDrawn (some g) = some { g with state := .DRAWING }) ∧
    (g.state = .DRAWING ∨ g.state = .FINISHED ∨ g.state = .CLOSED ∨ g.state = .CANCELLED →
        csNumberDrawn (some g) = some g) := by
  have hgid : (g.id == i) = true := List.find?_some (p := fun g0 => Game.id g0 == i) hfind
  refine ⟨?_, ?_, ?_, ?_⟩
  · intro hst
    have hcond : g.state = .COUNTDOWN ∨ g.state = .WAITING := hst.symm
    simp only [selStep, selStepF, htrack, hfind]
    rw [if_pos hcond]
    constructor
    · unfold stateOf gameUpd
      rw [find?_map_of_id_preserved _ _ (fun g0 => by split <;> rfl), hfind]
      have hid : g.id = i := by simpa using hgid
      simp [hid]
    · exact lookupA_removeA _ _
  · intro hst
    have hcond : ¬(g.state = .COUNTDOWN ∨ g.state = .WAITING) := by
      rcases hst with h | h | h | h <;> rw [h] <;> rintro (hc | hc) <;> exact GState.noConfusion hc
    simp only [selStep, selStepF, htrack, hfind]
    rw [if_neg hcond]
  · intro hst
    simp [csNumberDrawn, if_pos hst]
  · intro hst
    have hcond : ¬(g.state = .COUNTDOWN ∨ g.state = .WAITING) := by
      rcases hst with h | h | h | h <;> rw [h] <;> rintro (hc | hc) <;> exact GState.noConfusion hc
    simp [csNumberDrawn, if_neg hcond]

/-- C5 witness: a concrete `COUNTDOWN` game (with a displayed countdown)
jumps to `DRAWING` with its countdown cleared on `NUMBER_DRAWN`, and a
concrete `DRAWING` game is left untouched. -/
theorem number_drawn_forces_drawing_witness :
    stateOf (selStep "G3" 0
        ⟨[⟨"game1", "G3", .COUNTDOWN, 10, 2, 18, 1/10, some 5000⟩], [("game1", 5)],
          [("G3", "game1")], [], [], []⟩ .numberDrawn) "game1" = some .DRAWING ∧
    lookupA (selStep "G3" 0
        ⟨[⟨"game1", "G3", .COUNTDOWN, 10, 2, 18, 1/10, some 5000⟩], [("game1", 5)],
          [("G3", "game1")], [], [], []⟩ .numberDrawn).countdowns "game1" = none ∧
    selStep "G3" 0 sTracked .numberDrawn = sTracked := by
  have h1 := number_drawn_forces_drawing_spec "G3" 0
      ⟨[⟨"game1", "G3", .COUNTDOWN, 10, 2, 18, 1/10, some 5000⟩], [("game1", 5)],
        [("G3", "game1")], [], [], []⟩ "game1"
      ⟨"game1", "G3", .COUNTDOWN, 10, 2, 18, 1/10, some 5000⟩ rfl rfl
  have h2 := number_drawn_forces_drawing_spec "G3" 0 sTracked "game1" gDrawing rfl rfl
  exact ⟨(h1.1 (Or.inr rfl)).1, (h1.1 (Or.inr rfl)).2, h2.2.1 (Or.inl rfl)⟩

theorem hall_map_keep {games : List Game} {f : Game → Game} {i : String}
    (hf : ∀ g, (f g).id = g.id)
    (hfs : ∀ g, g.state = .DRAWING → (f g).state = .DRAWING)
    (hall : ∀ g ∈ games, g.id = i → g.state = .DRAWING) :
    ∀ g' ∈ games.map f, g'.id = i → g'.state = .DRAWING := by
  intro g' hg' hid
  rw [List.mem_map] at hg'
  obtain ⟨g0, hg0, rfl⟩ := hg'
  exact hfs g0 (hall g0 hg0 (by rw [← hf g0]; exact hid))

theorem hall_gameUpd_keep {games : List Game} {cid i : String} {f : Game → Game}
    (hf : ∀ g, (f g).id = g.id)
    (hfs : ∀ g, g.state = .DRAWING → (f g).state = .DRAWING)
    (hall : ∀ g ∈ games, g.id = i → g.state = .DRAWING) :
    ∀ g' ∈ gameUpd cid f games, g'.id = i → g'.state = .DRAWING := by
  apply hall_map_keep ?_ ?_ hall
  · intro g
    split
    · exact hf g
    · rfl
  · intro g hg
    split
    · exact hfs g hg
    · exact hg

theorem hall_gameUpd_ne {games : List Game} {cid i : String} {f : Game → Game}
    (hf : ∀ g, (f g).id = g.id) (hne : i ≠ cid)
    (hall : ∀ g ∈ games, g.id = i → g.state = .DRAWING) :
    ∀ g' ∈ gameUpd cid f games, g'.id = i → g'.state = .DRAWING := by
  intro g' hg' hid
  unfold gameUpd at hg'
  rw [List.mem_map] at hg'
  obtain ⟨g0, hg0, rfl⟩ := hg'
  by_cases h : (g0.id == cid) = true
  · exfalso
    rw [if_pos h] at hid
    rw [hf g0] at hid
    have h1 : g0.id = cid := by simpa using h
    exact hne (by rw [← hid]; exact h1)
  · rw [if_neg h] at hid ⊢
    exact hall g0 hg0 hid

theorem hall_filter {games : List Game} {p : Game → Bool} {i : String}
    (hall : ∀ g ∈ games, g.id = i → g.state = .DRAWING) :
    ∀ g' ∈ games.filter p, g'.id = i → g'.state = .DRAWING :=
  fun g' hg' => hall g' (List.mem_of_mem_filter hg')

/-- The events that carry no wholesale game snapshot: everything except
`INITIAL_STATE`, a `GAME_STATUS` with a `state` field, and a fetch
completion (those three overwrite the tracked game's state with whatever
the snapshot says). -/
def safeEvent : SelEvent → Bool
  | .initialState _ => false
  | .fetchSuccess _ _ => false
  | .gameStatus d => d.state == none
  | _ => true

/-- C1 (amended): a game displayed as `DRAWING` is never regressed to
`WAITING`/`COUNTDOWN` by `COUNTDOWN`, `NUMBER_DRAWN`, `PLAYER_COUNT`,
`PLAYER_JOINED`/`LEFT`, `WINNER`, terminal or state-less `GAME_STATUS`,
`NEW_GAME_AVAILABLE` or fetch-failure handling — after any such event it is
either still `DRAWING` or removed.  (`INITIAL_STATE`, a `GAME_STATUS`
carrying a `state` field, and a fetch completion are not covered: they
overwrite the snapshot unconditionally, see the counterexample.) -/
theorem drawing_preserved_by_safe_events (tier : String) (now : Int) (s : SelState)
    (e : SelEvent) (i : String)
    (hsafe : safeEvent e = true)
    (hall : ∀ g ∈ s.games, g.id = i → g.state = .DRAWING) :
    stateOf (selStep tier now s e) i = some .DRAWING ∨
    stateOf (selStep tier now s e) i = none := by
  have key : ∀ g' ∈ (selStep tier now s e).games, g'.id = i → g'.state = .DRAWING := by
    cases e with
    | initialState game => simp [safeEvent] at hsafe
    | fetchSuccess gid game => simp [safeEvent] at hsafe
    | gameStatus d =>
      have hdstate : d.state = none := by simpa [safeEvent] using hsafe
      simp only [selStep, selStepF, hdstate]
      split
      · split
        · split
          · exact hall_filter hall
          · exact hall
        · exact hall
      · split
        · exact hall
        · rename_i cid hcid
          split
          · rename_i ends hends
            split
            · rename_i g heqfind
              split
              · rename_i hwait
                have hgmem := List.mem_of_find?_eq_some heqfind
                have hgid : g.id = cid := by
                  simpa using List.find?_some (p := fun g0 => Game.id g0 == cid) heqfind
                have hne : i ≠ cid := by
                  intro hic
                  have := hall g hgmem (by rw [hic]; exact hgid)
                  rw [hwait] at this
                  exact GState.noConfusion this
                exact hall_gameUpd_ne (fun g0 => rfl) hne hall
              · exact hall
            · exact hall
          · exact hall
    | playerCount count =>
      simp only [selStep, selStepF]
      split
      · exact hall
      · split
        · exact hall
        · split
          · exact hall_gameUpd_keep (fun g => rfl) (fun g hg => hg) hall
          · exact hall
    | playerJoined count prize =>
      simp only [selStep, selStepF]
      split
      · split
        · exact hall_gameUpd_keep (fun g => rfl) (fun g hg => hg) hall
        · exact hall
      · exact hall
    | playerLeft count prize =>
      simp only [selStep, selStepF]
      split
      · split
        · exact hall_gameUpd_keep (fun g => rfl) (fun g hg => hg) hall
        · exact hall
      · exact hall
    | countdownTick secondsLeft ends =>
      simp only [selStep, selStepF]
      split
      · exact hall
      · rename_i cid hcid
        split
        · exact hall
        · rename_i sl hsl
          split
          · exact hall
          · rename_i g heqfind
            split
            · exact hall
            · rename_i hnotdone
              have hgmem := List.mem_of_find?_eq_some heqfind
              have hgid : g.id = cid := by
                simpa using List.find?_some (p := fun g0 => Game.id g0 == cid) heqfind
              have hne : i ≠ cid := by
                intro hic
                exact hnotdone (Or.inl (hall g hgmem (by rw [hic]; exact hgid)))
              exact hall_gameUpd_ne (fun g0 => rfl) hne hall
    | numberDrawn =>
      simp only [selStep, selStepF]
      split
      · split
        · exact hall
        · split
          · exact hall_gameUpd_keep (fun g => rfl) (fun g hg => rfl) hall
          · exact hall
      · exact hall
    | winner =>
      simp only [selStep, selStepF]
      split
      · split
        · exact hall_filter hall
        · exact hall
      · exact hall
    | newGameAvailable gtype gid =>
      simp only [selStep, selStepF]
      split
      · split
        · exact hall
        · split
          · exact hall
          · split
            · exact hall
            · exact hall
      · exact hall
    | fetchFailure gid =>
      exact hall
  rcases hfind : (selStep tier now s e).games.find? (fun g0 => g0.id == i) with _ | g'
  · right
    unfold stateOf
    rw [hfind]
    rfl
  · left
    unfold stateOf
    rw [hfind]
    have hmem := List.mem_of_find?_eq_some hfind
    have hid : g'.id = i := by
      simpa using List.find?_some (p := fun g0 => Game.id g0 == i) hfind
    show some g'.state = some GState.DRAWING
    exact congrArg some (key g' hmem hid)

/-- The events that may legitimately clear the "already processed" record of
an id `i`: everything except `WINNER`, a terminal `GAME_STATUS`, and a
failed fetch of `i` itself (those three deliberately un-record the id). -/
def dedupSafe (i : String) : SelEvent → Bool
  | .winner => false
  | .gameStatus d => !(d.status == some .FINISHED || d.status == some .CANCELLED)
  | .fetchFailure j => !(j == i)
  | _ => true

theorem processed_mono (tier : String) (now : Int) (s : SelState) (e : SelEvent) (i : String)
    (hsafe : dedupSafe i e = true) (hmem : i ∈ s.processed) :
    i ∈ (selStep tier now s e).processed := by
  cases e with
  | initialState game =>
    simp only [selStep, selStepF]
    repeat' split
    all_goals exact hmem
  | gameStatus d =>
    have hterm : ¬(d.status = some GState.FINISHED ∨ d.status = some GState.CANCELLED) := by
      simpa [dedupSafe] using hsafe
    simp only [selStep, selStepF]
    rw [if_neg hterm]
    repeat' split
    all_goals exact hmem
  | playerCount count =>
    simp only [selStep, selStepF]
    repeat' split
    all_goals exact hmem
  | playerJoined count prize =>
    simp only [selStep, selStepF]
    repeat' split
    all_goals exact hmem
  | playerLeft count prize =>
    simp only [selStep, selStepF]
    repeat' split
    all_goals exact hmem
  | countdownTick secondsLeft ends =>
    simp only [selStep, selStepF]
    repeat' split
    all_goals exact hmem
  | numberDrawn =>
    simp only [selStep, selStepF]
    repeat' split
    all_goals exact hmem
  | winner => simp [dedupSafe] at hsafe
  | newGameAvailable gtype gid =>
    simp only [selStep, selStepF]
    repeat' split
    all_goals first
      | exact hmem
      | exact mem_insertS_of_mem hmem
  | fetchSuccess gid game =>
    simp only [selStep, selStepF]
    repeat' split
    all_goals exact hmem
  | fetchFailure j =>
    have hne : i ≠ j := by
      intro hij
      rw [hij] at hsafe
      simp [dedupSafe] at hsafe
    exact mem_removeS_of_mem hmem hne

theorem fetch_start_facts (tier : String) (now : Int) (s : SelState) (e : SelEvent) (i : String)
    (h : (selStepF tier now s e).2 = some i) :
    i ∉ s.processed ∧ i ∉ s.fetching ∧
    i ∈ (selStep tier now s e).processed ∧ i ∈ (selStep tier now s e).fetching := by
  cases e with
  | newGameAvailable gtype gid =>
    simp only [selStepF] at h
    split at h
    case isTrue htier =>
      split at h
      case isTrue hproc => simp at h
      case isFalse hproc =>
        split at h
        case isTrue hfetch => simp at h
        case isFalse hfetch =>
          split at h
          case isTrue hex => simp at h
          case isFalse hex =>
            have hgi : gid = i := by simpa using h
            subst hgi
            simp only [selStep, selStepF, if_pos htier, if_neg hproc, if_neg hfetch, if_neg hex]
            exact ⟨hproc, hfetch, mem_insertS_self _ _, mem_insertS_self _ _⟩
    case isFalse htier => simp at h
  | initialState game =>
    simp only [selStepF] at h
    repeat' split at h
    all_goals simp at h
  | gameStatus d =>
    simp only [selStepF] at h
    repeat' split at h
    all_goals simp at h
  | playerCount count =>
    simp only [selStepF] at h
    repeat' split at h
    all_goals simp at h
  | playerJoined count prize =>
    simp only [selStepF] at h
    repeat' split at h
    all_goals simp at h
  | playerLeft count prize =>
    simp only [selStepF] at h
    repeat' split at h
    all_goals simp at h
  | countdownTick secondsLeft ends =>
    simp only [selStepF] at h
    repeat' split at h
    all_goals simp at h
  | numberDrawn =>
    simp only [selStepF] at h
    repeat' split at h
    all_goals simp at h
  | winner =>
    simp only [selStepF] at h
    repeat' split at h
    all_goals simp at h
  | fetchSuccess gid game =>
    simp only [selStepF] at h
    repeat' split at h
    all_goals simp at h
  | fetchFailure j =>
    simp only [selStepF] at h
    simp at h

theorem countFetchStarts_bound (tier : String) (now : Int) (i : String) :
    ∀ (trace : List SelEvent) (s : SelState),
      (∀ e ∈ trace, dedupSafe i e = true) →
      countFetchStarts tier now i s trace ≤ (if i ∈ s.processed then 0 else 1) := by
  intro trace
  induction trace with
  | nil =>
    intro s _
    simp only [countFetchStarts]
    split <;> omega
  | cons e es ih =>
    intro s h
    have hsafe : dedupSafe i e = true := h e (List.mem_cons_self _ _)
    have hrest : ∀ e' ∈ es, dedupSafe i e' = true := fun e' he' => h e' (List.mem_cons_of_mem _ he')
    simp only [countFetchStarts]
    by_cases hstart : (selStepF tier now s e).2 = some i
    · obtain ⟨hnp, _, hp, _⟩ := fetch_start_facts tier now s e i hstart
      rw [if_pos hstart, if_neg hnp]
      have hb := ih (selStep tier now s e) hrest
      rw [if_pos hp] at hb
      omega
    · rw [if_neg hstart]
      have hb := ih (selStep tier now s e) hrest
      by_cases hm : i ∈ s.processed
      · rw [if_pos hm]
        rw [if_pos (processed_mono tier now s e i hsafe hm)] at hb
        simpa using hb
      · rw [if_neg hm]
        have : (if i ∈ (selStep tier now s e).processed then 0 else 1) ≤ 1 := by
          split <;> omega
        omega

theorem map_ids_of_id_preserved (games : List Game) (f : Game → Game)
    (hf : ∀ g, (f g).id = g.id) :
    (games.map f).map Game.id = games.map Game.id := by
  induction games with
  | nil => rfl
  | cons g gs ih => simp [hf g, ih]

theorem map_ids_gameUpd (games : List Game) (cid : String) (f : Game → Game)
    (hf : ∀ g, (f g).id = g.id) :
    (gameUpd cid f games).map Game.id = games.map Game.id := by
  unfold gameUpd
  apply map_ids_of_id_preserved
  intro g
  split
  · exact hf g
  · rfl

theorem nodup_ids_filter {games : List Game} {p : Game → Bool}
    (h : (games.map Game.id).Nodup) : ((games.filter p).map Game.id).Nodup :=
  List.Nodup.sublist (List.Sublist.map _ (List.filter_sublist _)) h

theorem nodup_ids_filter_append {games : List Game} {p : Game → Bool} {game : Game}
    (h : (games.map Game.id).Nodup)
    (habs : games.any (fun g => g.id == game.id) = false) :
    (((games.filter p) ++ [game]).map Game.id).Nodup := by
  rw [List.map_append, List.map_singleton, List.nodup_append]
  refine ⟨nodup_ids_filter h, List.nodup_singleton _, ?_⟩
  intro x hx hx'
  rw [List.mem_singleton] at hx'
  subst hx'
  rw [List.mem_map] at hx
  obtain ⟨g0, hg0, hid⟩ := hx
  rw [List.any_eq_false] at habs
  exact absurd (by simpa using hid) (by simpa using habs g0 (List.mem_of_mem_filter hg0))

theorem games_ids_nodup_step (tier : String) (now : Int) (s : SelState) (e : SelEvent)
    (h : (s.games.map Game.id).Nodup) :
    (((selStep tier now s e).games).map Game.id).Nodup := by
  cases e with
  | initialState game =>
    simp only [selStep, selStepF]
    split
    · rw [map_ids_of_id_preserved s.games (fun g => if g.id == game.id then game else g)
          (fun g => by
            show (if (g.id == game.id) = true then game else g).id = g.id
            by_cases hc : (g.id == game.id) = true
            · rw [if_pos hc]
              exact (eq_of_beq hc).symm
            · rw [if_neg hc])]
      exact h
    · split
      · rename_i hex _
        exact nodup_ids_filter_append h (by simpa using hex)
      · exact h
  | gameStatus d =>
    simp only [selStep, selStepF]
    split
    · split
      · split
        · exact nodup_ids_filter h
        · exact h
      · exact h
    · split
      · exact h
      · split
        · split
          · rw [map_ids_gameUpd _ _ _ (fun g => by rfl)]
            exact h
          · exact h
        · split
          · split
            · split
              · rw [map_ids_gameUpd _ _ _ (fun g => by rfl)]
                exact h
              · exact h
            · exact h
          · exact h
  | playerCount count =>
    simp only [selStep, selStepF]
    repeat' split
    all_goals first
      | exact h
      | (rw [map_ids_gameUpd _ _ _ (fun g => by rfl)]; exact h)
  | playerJoined count prize =>
    simp only [selStep, selStepF]
    repeat' split
    all_goals first
      | exact h
      | (rw [map_ids_gameUpd _ _ _ (fun g => by rfl)]; exact h)
  | playerLeft count prize =>
    simp only [selStep, selStepF]
    repeat' split
    all_goals first
      | exact h
      | (rw [map_ids_gameUpd _ _ _ (fun g => by rfl)]; exact h)
  | countdownTick secondsLeft ends =>
    simp only [selStep, selStepF]
    repeat' split
    all_goals first
      | exact h
      | (rw [map_ids_gameUpd _ _ _ (fun g => by rfl)]; exact h)
  | numberDrawn =>
    simp only [selStep, selStepF]
    repeat' split
    all_goals first
      | exact h
      | (rw [map_ids_gameUpd _ _ _ (fun g => by rfl)]; exact h)
  | winner =>
    simp only [selStep, selStepF]
    repeat' split
    all_goals first
      | exact h
      | exact nodup_ids_filter h
  | newGameAvailable gtype gid =>
    simp only [selStep, selStepF]
    repeat' split
    all_goals exact h
  | fetchSuccess gid game =>
    simp only [selStep, selStepF]
    split
    · exact h
    · split
      · exact h
      · split
        · rw [map_ids_of_id_preserved s.games (fun g => if g.id == game.id then game else g)
              (fun g => by
                show (if (g.id == game.id) = true then game else g).id = g.id
                by_cases hc : (g.id == game.id) = true
                · rw [if_pos hc]
                  exact (eq_of_beq hc).symm
                · rw [if_neg hc])]
          exact h
        · rename_i hex
          exact nodup_ids_filter_append h (by simpa using hex)
  | fetchFailure j =>
    exact h

/-- C3: handling of `NEW_GAME_AVAILABLE` is at-most-once.  (1) When a
delivery starts the asynchronous fetch, the id was in neither guard set and
is recorded in both the processed and the fetching set in the same
synchronous step, before any asynchronous work can run; (2) a delivery for
an id already recorded as processed is a complete no-op; (3) along any trace
of handler steps that contains no `WINNER`/terminal-status step and no
failed fetch of the id, at most one fetch chain is ever started for it; and
(4) every step preserves distinctness of the displayed game ids, so the game
is never inserted twice into the displayed list. -/
theorem new_game_available_dedup_spec (tier : String) (now : Int) (i : String)
    (s : SelState) (trace : List SelEvent) (e : SelEvent) :
    ((selStepF tier now s e).2 = some i →
        i ∉ s.processed ∧ i ∉ s.fetching ∧
        i ∈ (selStep tier now s e).processed ∧ i ∈ (selStep tier now s e).fetching) ∧
    (i ∈ s.processed → selStepF tier now s (.newGameAvailable tier i) = (s, none)) ∧
    ((∀ e' ∈ trace, dedupSafe i e' = true) → countFetchStarts tier now i s trace ≤ 1) ∧
    ((s.games.map Game.id).Nodup → (((selStep tier now s e).games).map Game.id).Nodup) := by
  refine ⟨fetch_start_facts tier now s e i, ?_, ?_, games_ids_nodup_step tier now s e⟩
  · intro hmem
    simp [selStepF, hmem]
  · intro hsafe
    have hb := countFetchStarts_bound tier now i trace s hsafe
    have : (if i ∈ s.processed then 0 else 1) ≤ 1 := by
      split <;> omega
    omega

/-- C3 witness: delivering the same `NEW_GAME_AVAILABLE {G3, game9}` twice
from the empty state starts at most one fetch (the counting bound applied to
the concrete trace), the first delivery records the id in both guard sets,
a delivery for an already-processed id is a no-op, and the displayed ids
stay distinct. -/
theorem new_game_available_dedup_witness :
    countFetchStarts "G3" 0 "game9" ⟨[], [], [], [], [], []⟩
        [.newGameAvailable "G3" "game9", .newGameAvailable "G3" "game9"] ≤ 1 ∧
    "game9" ∈ (selStep "G3" 0 ⟨[], [], [], [], [], []⟩
        (.newGameAvailable "G3" "game9")).processed ∧
    "game9" ∈ (selStep "G3" 0 ⟨[], [], [], [], [], []⟩
        (.newGameAvailable "G3" "game9")).fetching ∧
    selStepF "G3" 0 ⟨[], [], [], ["game9"], [], []⟩ (.newGameAvailable "G3" "game9")
      = (⟨[], [], [], ["game9"], [], []⟩, none) ∧
    ((selStep "G3" 0 ⟨[], [], [], [], [], []⟩ (.newGameAvailable "G3" "game9")).games.map
        Game.id).Nodup := by
  have h := new_game_available_dedup_spec "G3" 0 "game9" ⟨[], [], [], [], [], []⟩
      [.newGameAvailable "G3" "game9", .newGameAvailable "G3" "game9"]
      (.newGameAvailable "G3" "game9")
  have h2 := new_game_available_dedup_spec "G3" 0 "game9" ⟨[], [], [], ["game9"], [], []⟩
      [] (.newGameAvailable "G3" "game9")
  have hstart := h.1 (by decide)
  exact ⟨h.2.2.1 (by decide), hstart.2.2.1, hstart.2.2.2, h2.2.1 (by decide),
    h.2.2.2 (by decide)⟩

/-- C1 witness: applying the preservation theorem to the concrete tracked
`DRAWING` game and a concrete `COUNTDOWN` tick. -/
theorem drawing_preserved_witness :
    stateOf (selStep "G3" 0 sTracked (.countdownTick (some 5) none)) "game1"
        = some .DRAWING ∨
    stateOf (selStep "G3" 0 sTracked (.countdownTick (some 5) none)) "game1" = none :=
  drawing_preserved_by_safe_events "G3" 0 sTracked (.countdownTick (some 5) none) "game1"
    rfl (by decide)

/-- The events that carry no snapshot of the id `i`: everything except an
`INITIAL_STATE` whose game has id `i` and a fetch completion whose fetched
game has id `i` (the only two handlers that can insert a game). -/
def avoidsId (i : String) : SelEvent → Bool
  | .initialState g => !(g.id == i)
  | .fetchSuccess _ g => !(g.id == i)
  | _ => true

theorem absent_map {games : List Game} {f : Game → Game} {i : String}
    (hf : ∀ g, (f g).id = g.id) (habs : ∀ g ∈ games, g.id ≠ i) :
    ∀ g' ∈ games.map f, g'.id ≠ i := by
  intro g' hg'
  rw [List.mem_map] at hg'
  obtain ⟨g0, hg0, rfl⟩ := hg'
  rw [hf g0]
  exact habs g0 hg0

theorem absent_filter {games : List Game} {p : Game → Bool} {i : String}
    (habs : ∀ g ∈ games, g.id ≠ i) :
    ∀ g' ∈ games.filter p, g'.id ≠ i :=
  fun g' hg' => habs g' (List.mem_of_mem_filter hg')

theorem absent_filter_append {games : List Game} {p : Game → Bool} {game : Game} {i : String}
    (habs : ∀ g ∈ games, g.id ≠ i) (hgame : game.id ≠ i) :
    ∀ g' ∈ (games.filter p) ++ [game], g'.id ≠ i := by
  intro g' hg'
  rw [List.mem_append] at hg'
  rcases hg' with hg' | hg'
  · exact absent_filter habs g' hg'
  · rw [List.mem_singleton] at hg'
    subst hg'
    exact hgame

theorem absent_gameUpd {games : List Game} {cid i : String} {f : Game → Game}
    (hf : ∀ g, (f g).id = g.id) (habs : ∀ g ∈ games, g.id ≠ i) :
    ∀ g' ∈ gameUpd cid f games, g'.id ≠ i := by
  apply absent_map ?_ habs
  intro g
  show (if (g.id == cid) = true then f g else g).id = g.id
  split
  · exact hf g
  · rfl

theorem absent_id_step (tier : String) (now : Int) (s : SelState) (e : SelEvent) (i : String)
    (hsafe : avoidsId i e = true) (habs : ∀ g ∈ s.games, g.id ≠ i) :
    ∀ g ∈ (selStep tier now s e).games, g.id ≠ i := by
  cases e with
  | initialState game =>
    have hgame : game.id ≠ i := by simpa [avoidsId] using hsafe
    simp only [selStep, selStepF]
    split
    · exact absent_map (fun g => by
        show (if (g.id == game.id) = true then game else g).id = g.id
        by_cases hc : (g.id == game.id) = true
        · rw [if_pos hc]
          exact (eq_of_beq hc).symm
        · rw [if_neg hc]) habs
    · split
      · exact absent_filter_append habs hgame
      · exact habs
  | gameStatus d =>
    simp only [selStep, selStepF]
    repeat' split
    all_goals first
      | exact habs
      | exact absent_filter habs
      | exact absent_gameUpd (fun g => by rfl) habs
  | playerCount count =>
    simp only [selStep, selStepF]
    repeat' split
    all_goals first
      | exact habs
      | exact absent_gameUpd (fun g => by rfl) habs
  | playerJoined count prize =>
    simp only [selStep, selStepF]
    repeat' split
    all_goals first
      | exact habs
      | exact absent_gameUpd (fun g => by rfl) habs
  | playerLeft count prize =>
    simp only [selStep, selStepF]
    repeat' split
    all_goals first
      | exact habs
      | exact absent_gameUpd (fun g => by rfl) habs
  | countdownTick secondsLeft ends =>
    simp only [selStep, selStepF]
    repeat' split
    all_goals first
      | exact habs
      | exact absent_gameUpd (fun g => by rfl) habs
  | numberDrawn =>
    simp only [selStep, selStepF]
    repeat' split
    all_goals first
      | exact habs
      | exact absent_gameUpd (fun g => by rfl) habs
  | winner =>
    simp only [selStep, selStepF]
    repeat' split
    all_goals first
      | exact habs
      | exact absent_filter habs
  | newGameAvailable gtype gid =>
    simp only [selStep, selStepF]
    repeat' split
    all_goals exact habs
  | fetchSuccess gid game =>
    have hgame : game.id ≠ i := by simpa [avoidsId] using hsafe
    simp only [selStep, selStepF]
    split
    · exact habs
    · split
      · exact habs
      · split
        · exact absent_map (fun g => by
            show (if (g.id == game.id) = true then game else g).id = g.id
            by_cases hc : (g.id == game.id) = true
            · rw [if_pos hc]
              exact (eq_of_beq hc).symm
            · rw [if_neg hc]) habs
        · exact absent_filter_append habs hgame
  | fetchFailure j =>
    exact habs

theorem absent_id_run (tier : String) (now : Int) (i : String) :
    ∀ (trace : List SelEvent) (s : SelState),
      (∀ g ∈ s.games, g.id ≠ i) →
      (∀ e ∈ trace, avoidsId i e = true) →
      ∀ g ∈ (selRun tier now s trace).games, g.id ≠ i := by
  intro trace
  induction trace with
  | nil => intro s habs _; exact habs
  | cons e es ih =>
    intro s habs h
    exact ih (selStep tier now s e)
      (absent_id_step tier now s e i (h e (List.mem_cons_self _ _)) habs)
      (fun e' he' => h e' (List.mem_cons_of_mem _ he'))

/-- C4 (amended): a `WINNER` or terminal `GAME_STATUS` event removes the
tier's tracked game id from the displayed list, and the id stays absent
along any continuation whose events carry no snapshot of that id — i.e. no
later `INITIAL_STATE` with that game and no fetch completion delivering it.
(The handlers also delete the id from the processed set, so a re-delivered
`NEW_GAME_AVAILABLE` can legitimately fetch and re-add it — see the
counterexample.) -/
theorem terminal_removal_spec (tier : String) (now : Int) (s : SelState) (cid i : String)
    (d : StatusData) (trace : List SelEvent) :
    (lookupA s.wsGameId tier = some cid →
        cid ∉ (selStep tier now s .winner).games.map Game.id) ∧
    (lookupA s.wsGameId tier = some cid →
        (d.status = some .FINISHED ∨ d.status = some .CANCELLED) →
        cid ∉ (selStep tier now s (.gameStatus d)).games.map Game.id) ∧
    ((i ∉ s.games.map Game.id) → (∀ e ∈ trace, avoidsId i e = true) →
        i ∉ (selRun tier now s trace).games.map Game.id) := by
  have habs_of_not_mem : ∀ (l : List Game) (j : String),
      j ∉ l.map Game.id → ∀ g ∈ l, g.id ≠ j := by
    intro l j hj g hg hid
    exact hj (List.mem_map.mpr ⟨g, hg, hid⟩)
  have not_mem_of_habs : ∀ (l : List Game) (j : String),
      (∀ g ∈ l, g.id ≠ j) → j ∉ l.map Game.id := by
    intro l j hall hj
    rw [List.mem_map] at hj
    obtain ⟨g, hg, hid⟩ := hj
    exact hall g hg hid
  refine ⟨?_, ?_, ?_⟩
  · intro htrack
    apply not_mem_of_habs
    simp only [selStep, selStepF, htrack]
    split
    · intro g hg hid
      rw [List.mem_filter] at hg
      exact absurd (by simpa using hid) (by simpa using hg.2)
    · rename_i hany
      intro g hg hid
      exact hany (List.any_eq_true.mpr ⟨g, hg, by simpa using hid⟩)
  · intro htrack hterm
    apply not_mem_of_habs
    simp only [selStep, selStepF]
    rw [if_pos hterm]
    simp only [htrack]
    split
    · intro g hg hid
      rw [List.mem_filter] at hg
      exact absurd (by simpa using hid) (by simpa using hg.2)
    · rename_i hany
      intro g hg hid
      exact hany (List.any_eq_true.mpr ⟨g, hg, by simpa using hid⟩)
  · intro habs hsafe
    exact not_mem_of_habs _ _
      (absent_id_run tier now i trace s (habs_of_not_mem _ _ habs) hsafe)

/-- C4 witness: for the concrete tracked game, `WINNER` and a terminal
`GAME_STATUS` both remove `game1` from the displayed list, and it stays
absent along a concrete continuation that carries no snapshot of it. -/
theorem terminal_removal_witness :
    "game1" ∉ (selStep "G3" 0 sTracked .winner).games.map Game.id ∧
    "game1" ∉ (selStep "G3" 0 sTracked
        (.gameStatus ⟨some .FINISHED, none, none, none, none, none⟩)).games.map Game.id ∧
    "game1" ∉ (selRun "G3" 0 (selStep "G3" 0 sTracked .winner)
        [.countdownTick (some 3) none, .numberDrawn,
          .newGameAvailable "G3" "game2"]).games.map Game.id := by
  have h := terminal_removal_spec "G3" 0 sTracked "game1" "game1"
      ⟨some .FINISHED, none, none, none, none, none⟩
      [.countdownTick (some 3) none, .numberDrawn, .newGameAvailable "G3" "game2"]
  have h2 := terminal_removal_spec "G3" 0 (selStep "G3" 0 sTracked .winner) "game1" "game1"
      ⟨some .FINISHED, none, none, none, none, none⟩
      [.countdownTick (some 3) none, .numberDrawn, .newGameAvailable "G3" "game2"]
  exact ⟨h.1 rfl, h.2.1 rfl (Or.inl rfl), h2.2.2 (by decide) (by decide)⟩
